import Mathlib

/-!
Verification of the voicebot-backend session store, audio cache and route
orchestration, as a shallow embedding of the Python sources.

Conventions of the embedding:
* 32-bit machine words are `Nat` with explicit `% 4294967296` (`2 ^ 32`).
* `datetime.utcnow()` values are `Nat` instants passed explicitly as `now`;
  `timedelta` comparison `utcnow() - last_activity > timeout` becomes the
  truncated-subtraction comparison `timeout < now - last_activity`, which
  agrees with the Python comparison whenever the clock is monotone.
* The Python dict `self.sessions` is an association list with
  insertion-order-preserving assignment (`assocSet`) and deletion
  (`assocErase`), mirroring CPython dict semantics for the operations used.
* The audio file cache `temp_audio/` is an association list from audio id to
  file bytes; `Path.exists` is a lookup returning `some`.
* Fallible provider calls (OpenAI completion / transcription) are parameters
  returning `Except Unit α`; an `Except.error` models a raised provider
  exception.  `route`-level `try/except` becomes case analysis on these.
* The system prompt content is an opaque configuration string (the spec
  declares it a non-goal), threaded through as a `sysPrompt` parameter;
  only its role `"system"` is fixed by the source.
-/

set_option maxRecDepth 10000

/-! ## UTF-8 and MD5 (hashlib.md5 over `f"{text}:{voice}".encode()`) -/

/-- UTF-8 encoding of one character as byte values, as `str.encode()` does. -/
def utf8EncodeCharNat (c : Char) : List Nat :=
  let n := c.toNat
  if n < 0x80 then [n]
  else if n < 0x800 then [0xC0 ||| (n >>> 6), 0x80 ||| (n &&& 0x3F)]
  else if n < 0x10000 then
    [0xE0 ||| (n >>> 12), 0x80 ||| ((n >>> 6) &&& 0x3F), 0x80 ||| (n &&& 0x3F)]
  else
    [0xF0 ||| (n >>> 18), 0x80 ||| ((n >>> 12) &&& 0x3F),
     0x80 ||| ((n >>> 6) &&& 0x3F), 0x80 ||| (n &&& 0x3F)]

/-- Byte values of the UTF-8 encoding of a string (`str.encode()`). -/
def bytesOfString (s : String) : List Nat :=
  (s.data.map utf8EncodeCharNat).flatten

/-- RFC 1321 sine-derived round constants `K[i] = floor(abs(sin(i+1)) * 2^32)`. -/
def md5K : List Nat := [3614090360, 3905402710, 606105819, 3250441966,
  4118548399, 1200080426, 2821735955, 4249261313, 1770035416, 2336552879,
  4294925233, 2304563134, 1804603682, 4254626195, 2792965006, 1236535329,
  4129170786, 3225465664, 643717713, 3921069994, 3593408605, 38016083,
  3634488961, 3889429448, 568446438, 3275163606, 4107603335, 1163531501,
  2850285829, 4243563512, 1735328473, 2368359562, 4294588738, 2272392833,
  1839030562, 4259657740, 2763975236, 1272893353, 4139469664, 3200236656,
  681279174, 3936430074, 3572445317, 76029189, 3654602809, 3873151461,
  530742520, 3299628645, 4096336452, 1126891415, 2878612391, 4237533241,
  1700485571, 2399980690, 4293915773, 2240044497, 1873313359, 4264355552,
  2734768916, 1309151649, 4149444226, 3174756917, 718787259, 3951481745]

/-- RFC 1321 per-round left-rotation amounts. -/
def md5S : List Nat := [7, 12, 17, 22, 7, 12, 17, 22, 7, 12, 17, 22, 7, 12,
  17, 22, 5, 9, 14, 20, 5, 9, 14, 20, 5, 9, 14, 20, 5, 9, 14, 20, 4, 11, 16,
  23, 4, 11, 16, 23, 4, 11, 16, 23, 4, 11, 16, 23, 6, 10, 15, 21, 6, 10, 15,
  21, 6, 10, 15, 21, 6, 10, 15, 21]

/-- Bitwise complement on 32-bit words represented as `Nat`. -/
def not32 (x : Nat) : Nat := x ^^^ 0xFFFFFFFF

/-- Left rotation of a 32-bit word represented as `Nat`. -/
def rotl32 (x n : Nat) : Nat := ((x <<< n) % 4294967296) ||| (x >>> (32 - n))

structure MD5State where
  a : Nat
  b : Nat
  c : Nat
  d : Nat
deriving Repr, DecidableEq

/-- Nonlinear function and message-word index for MD5 operation `i`. -/
def md5FG (i b c d : Nat) : Nat × Nat :=
  if i < 16 then ((b &&& c) ||| (not32 b &&& d), i)
  else if i < 32 then ((d &&& b) ||| (not32 d &&& c), (5 * i + 1) % 16)
  else if i < 48 then (b ^^^ c ^^^ d, (3 * i + 5) % 16)
  else (c ^^^ (b ||| not32 d), (7 * i) % 16)

/-- One of the 64 MD5 operations on the running state. -/
def md5Op (M : List Nat) (st : MD5State) (i : Nat) : MD5State :=
  let fg := md5FG i st.b st.c st.d
  let f2 := (fg.1 + st.a + md5K.getD i 0 + M.getD fg.2 0) % 4294967296
  ⟨st.d, (st.b + rotl32 f2 (md5S.getD i 0)) % 4294967296, st.b, st.c⟩

/-- Little-endian 32-bit words of a byte list. -/
def leWords : List Nat → List Nat
  | b0 :: b1 :: b2 :: b3 :: rest =>
    (b0 + 256 * b1 + 65536 * b2 + 16777216 * b3) :: leWords rest
  | _ => []

/-- Process one 64-byte chunk. -/
def md5ProcessChunk (st : MD5State) (chunk : List Nat) : MD5State :=
  let M := leWords chunk
  let r := (List.range 64).foldl (md5Op M) st
  ⟨(st.a + r.a) % 4294967296, (st.b + r.b) % 4294967296,
   (st.c + r.c) % 4294967296, (st.d + r.d) % 4294967296⟩

/-- MD5 padding: `0x80`, zeros to 56 mod 64, then the 64-bit LE bit length. -/
def md5Pad (msg : List Nat) : List Nat :=
  let len := msg.length
  let zeros := (120 - (len + 1) % 64) % 64
  msg ++ [0x80] ++ List.replicate zeros 0
      ++ (List.range 8).map (fun i => ((len * 8) >>> (8 * i)) &&& 255)

def md5Init : MD5State := ⟨0x67452301, 0xefcdab89, 0x98badcfe, 0x10325476⟩

/-- Run MD5 over a byte list. -/
def md5Run (msg : List Nat) : MD5State :=
  let padded := md5Pad msg
  (List.range (padded.length / 64)).foldl
    (fun st j => md5ProcessChunk st ((padded.drop (64 * j)).take 64)) md5Init

/-- Lower-case hexadecimal digit. -/
def hexChar (n : Nat) : Char := if n < 10 then Char.ofNat (48 + n) else Char.ofNat (87 + n)

/-- Little-endian byte values of a 32-bit word. -/
def wordLEBytes (w : Nat) : List Nat :=
  [w &&& 255, (w >>> 8) &&& 255, (w >>> 16) &&& 255, (w >>> 24) &&& 255]

/-- `hashlib.md5(bytes).hexdigest()`. -/
def md5HexBytes (msg : List Nat) : String :=
  let st := md5Run msg
  String.mk ((([st.a, st.b, st.c, st.d].map wordLEBytes).flatten.map
    (fun b => [hexChar (b / 16), hexChar (b % 16)])).flatten)

/-- `hashlib.md5(s.encode()).hexdigest()`. -/
def md5HexOfString (s : String) : String := md5HexBytes (bytesOfString s)

/-! ## Configuration (`app/config.py`) -/

/-- Settings fields used by the verified components, with the defaults of
`app/config.py`. -/
structure Settings where
  max_conversation_length : Nat := 20
  session_timeout_seconds : Nat := 3600
  max_audio_file_size_mb : Nat := 25
  openai_tts_voice : String := "alloy"
deriving Repr, DecidableEq

/-- `Settings.max_audio_file_size_bytes`: MB converted to bytes. -/
def Settings.max_audio_file_size_bytes (st : Settings) : Nat :=
  st.max_audio_file_size_mb * 1024 * 1024

/-- The settings instance with all defaults (`get_settings()` with an empty
environment apart from the required API key). -/
def defaultSettings : Settings := {}

/-! ## Association-list maps (CPython dict semantics for the operations used) -/

/-- `d.get(k)`. -/
def assocGet {α : Type} : List (String × α) → String → Option α
  | [], _ => none
  | (k, v) :: rest, id => if k = id then some v else assocGet rest id

/-- `d[k] = v`: replaces in place if present, else appends at the end. -/
def assocSet {α : Type} : List (String × α) → String → α → List (String × α)
  | [], id, v => [(id, v)]
  | (k, w) :: rest, id, v =>
    if k = id then (k, v) :: rest else (k, w) :: assocSet rest id v

/-- `del d[k]` (removes every binding of the key). -/
def assocErase {α : Type} : List (String × α) → String → List (String × α)
  | [], _ => []
  | (k, v) :: rest, id =>
    if k = id then assocErase rest id else (k, v) :: assocErase rest id

/-! ## Conversation manager (`app/services/conversation_manager.py`) -/

structure Message where
  role : String
  content : String
deriving Repr, DecidableEq

/-- One entry of `ConversationManager.sessions`. -/
structure SessionData where
  messages : List Message
  created_at : Nat
  last_activity : Nat
  message_count : Nat
deriving Repr, DecidableEq

abbrev Registry := List (String × SessionData)

/-- `ConversationManager._create_session_data`; the prompt content is the
opaque configuration string `sysPrompt`. -/
def _create_session_data (sysPrompt : String) (now : Nat) : SessionData :=
  { messages := [{ role := "system", content := sysPrompt }]
    created_at := now
    last_activity := now
    message_count := 0 }

/-- `ConversationManager.create_session` (the fresh UUID is `session_id`):
registry effect of storing a new session. -/
def create_session (reg : Registry) (session_id sysPrompt : String)
    (now : Nat) : Registry :=
  assocSet reg session_id (_create_session_data sysPrompt now)

/-- `ConversationManager._is_session_expired`. -/
def _is_session_expired (st : Settings) (session : SessionData) (now : Nat) : Bool :=
  decide (st.session_timeout_seconds < now - session.last_activity)

/-- `ConversationManager.get_session`: expiry-aware lookup that evicts an
expired session as a side effect.  Returns the result and the registry. -/
def get_session (st : Settings) (reg : Registry) (session_id : String)
    (now : Nat) : Option SessionData × Registry :=
  match assocGet reg session_id with
  | none => (none, reg)
  | some session =>
    if _is_session_expired st session now then (none, assocErase reg session_id)
    else (some session, reg)

/-- Python slice `messages[-(n):]`: for `n = 0` this is the whole list. -/
def pyLastSlice (n : Nat) (xs : List Message) : List Message :=
  if n = 0 then xs else xs.drop (xs.length - n)

/-- `ConversationManager._trim_conversation_history`, list level: keep the
system message plus `messages[-(max_length):]` when the list exceeds
`max_length + 1`. -/
def _trim_conversation_history (st : Settings) (msgs : List Message) : List Message :=
  if st.max_conversation_length + 1 < msgs.length then
    match msgs with
    | [] => []
    | system_message :: _ =>
      system_message :: pyLastSlice st.max_conversation_length msgs
  else msgs

/-- Registry effect of `_trim_conversation_history(session_id)`: re-fetches
the session and trims its messages; a vanished session means no effect. -/
def _trim_session (st : Settings) (reg : Registry) (session_id : String) : Registry :=
  match assocGet reg session_id with
  | none => reg
  | some s =>
    assocSet reg session_id
      { s with messages := _trim_conversation_history st s.messages }

/-- Second half of `ConversationManager.add_message` (the body under the
second `session_lock` acquisition): mutates the session object captured by
the preceding `get_session`, then trims.  If the id has been deleted in the
interim, the mutation lands on a dangling object (invisible in the registry)
and the trim's re-fetch finds nothing; the method still returns `True`.
When the id is present it is assumed to still be bound to the captured
object (ids are fresh UUIDs, so no delete-then-recreate aliasing arises). -/
def add_message_phase2 (st : Settings) (reg : Registry) (session_id : String)
    (captured : SessionData) (role content : String) (now : Nat) :
    Bool × Registry :=
  let mutated : SessionData :=
    { captured with
      messages := captured.messages ++ [{ role := role, content := content }]
      last_activity := now
      message_count := captured.message_count + 1 }
  match assocGet reg session_id with
  | none => (true, reg)
  | some _ => (true, _trim_session st (assocSet reg session_id mutated) session_id)

/-- `ConversationManager.add_message`, run without interference between its
two lock-protected sections (`get_session`, then mutate + trim). -/
def add_message (st : Settings) (reg : Registry) (session_id role content : String)
    (now : Nat) : Bool × Registry :=
  match get_session st reg session_id now with
  | (none, reg1) => (false, reg1)
  | (some session, reg1) => add_message_phase2 st reg1 session_id session role content now

/-- `ConversationManager.get_messages`. -/
def get_messages (st : Settings) (reg : Registry) (session_id : String)
    (now : Nat) : Option (List Message) × Registry :=
  match get_session st reg session_id now with
  | (none, reg1) => (none, reg1)
  | (some session, reg1) => (some session.messages, reg1)

/-- `ConversationManager.delete_session`. -/
def delete_session (reg : Registry) (session_id : String) : Bool × Registry :=
  match assocGet reg session_id with
  | none => (false, reg)
  | some _ => (true, assocErase reg session_id)

/-- One pass of the `_cleanup_expired_sessions` background sweep (collect
expired ids under the lock, then delete each). -/
def _cleanup_expired_sessions (st : Settings) (reg : Registry) (now : Nat) : Registry :=
  reg.filter (fun p => ! _is_session_expired st p.2 now)

/-- `add_message` interleaved with a `delete_session` of the same id at the
suspension point between its two lock-protected sections (after the
`await self.get_session(...)` returns and before `async with
self.session_lock` re-acquires the lock). -/
def add_message_delete_interleaved (st : Settings) (reg : Registry)
    (session_id role content : String) (now : Nat) : Bool × Registry :=
  match get_session st reg session_id now with
  | (none, reg1) => (false, reg1)
  | (some captured, reg1) =>
    let reg2 := (delete_session reg1 session_id).2
    add_message_phase2 st reg2 session_id captured role content now

/-! ## Manager operation traces (for the store-wide invariant) -/

/-- One registry operation of the conversation manager. -/
inductive ManagerOp where
  | create (session_id sysPrompt : String) (now : Nat)
  | get (session_id : String) (now : Nat)
  | add (session_id role content : String) (now : Nat)
  | delete (session_id : String)
  | cleanup (now : Nat)
deriving Repr, DecidableEq

/-- Registry effect of one manager operation. -/
def applyOp (st : Settings) (reg : Registry) : ManagerOp → Registry
  | ManagerOp.create id sp now => create_session reg id sp now
  | ManagerOp.get id now => (get_session st reg id now).2
  | ManagerOp.add id role content now => (add_message st reg id role content now).2
  | ManagerOp.delete id => (delete_session reg id).2
  | ManagerOp.cleanup now => _cleanup_expired_sessions st reg now

/-- Registry after a sequence of manager operations from the empty store. -/
def runOps (st : Settings) (ops : List ManagerOp) : Registry :=
  ops.foldl (applyOp st) []

/-- Repeated `add_message` calls on one session id (registry effect). -/
def runAppends (st : Settings) (reg : Registry) (session_id : String)
    (turns : List (String × String)) (now : Nat) : Registry :=
  turns.foldl (fun r t => (add_message st r session_id t.1 t.2 now).2) reg

/-! ## TTS service (`app/services/tts_service.py`) -/

/-- The `temp_audio/` content-addressed cache: audio id to file bytes. -/
abbrev AudioStore := List (String × List Nat)

/-- `TTSService._generate_audio_id`: MD5 hex digest of `f"{text}:{voice}"`. -/
def _generate_audio_id (text voice : String) : String :=
  md5HexOfString (text ++ ":" ++ voice)

/-- `OpenAIService.text_to_speech`: resolves the voice default and calls the
provider speech API with the given speed (the source's default is `1.25`). -/
def text_to_speech (st : Settings) (speechAPI : String → String → ℚ → List Nat)
    (text : String) (voice : Option String) (speed : ℚ) : List Nat :=
  speechAPI text (voice.getD st.openai_tts_voice) speed

/-- `TTSService.generate_speech`: resolves the voice, computes the cache key,
serves from the cache when `use_cache` holds and the file exists, otherwise
synthesizes and unconditionally saves the result to the cache.  Returns
`((audio_id, audio_bytes), store)`. -/
def generate_speech (st : Settings) (synthesize : String → String → List Nat)
    (store : AudioStore) (text : String) (voice : Option String)
    (use_cache : Bool) : (String × List Nat) × AudioStore :=
  let v := voice.getD st.openai_tts_voice
  let audio_id := _generate_audio_id text v
  match use_cache, assocGet store audio_id with
  | true, some cached => ((audio_id, cached), store)
  | _, _ =>
    let audio_bytes := synthesize text v
    ((audio_id, audio_bytes), assocSet store audio_id audio_bytes)

/-- `TTSService.get_audio`: read the cached file, absent when missing. -/
def get_audio (store : AudioStore) (audio_id : String) : Option (List Nat) :=
  assocGet store audio_id

/-! ## Routes (`app/routes/chat.py`, `app/routes/voice.py`) -/

/-- Outcome of `POST /api/chat`. -/
inductive ChatOutcome where
  | success (response_text session_id : String) (tokens_used : Nat)
  | httpError (code : Nat)
deriving Repr, DecidableEq

/-- The `chat` route handler (`app/routes/chat.py`).  `completer` is
`openai_service.chat_completion` returning content and tokens, or a raised
provider error; `fresh_id` is the UUID a `create_session` call would mint.
The user message is appended before the completion call; a completion
failure is caught by the handler's `except` and surfaced as a 500 with the
user message already committed. -/
def chat (st : Settings) (reg : Registry)
    (completer : List Message → Except Unit (String × Nat))
    (message : String) (session_id : Option String) (fresh_id sysPrompt : String)
    (now : Nat) : ChatOutcome × Registry :=
  let step1 : String × Registry :=
    match session_id with
    | none => (fresh_id, create_session reg fresh_id sysPrompt now)
    | some sid => (sid, reg)
  let step2 : String × Registry :=
    match get_messages st step1.2 step1.1 now with
    | (some _, r) => (step1.1, r)
    | (none, r) => (fresh_id, create_session r fresh_id sysPrompt now)
  let reg3 := (add_message st step2.2 step2.1 "user" message now).2
  match get_messages st reg3 step2.1 now with
  | (none, reg4) => (ChatOutcome.httpError 500, reg4)
  | (some msgs, reg4) =>
    match completer msgs with
    | Except.error _ => (ChatOutcome.httpError 500, reg4)
    | Except.ok r =>
      let reg5 := (add_message st reg4 step2.1 "assistant" r.1 now).2
      (ChatOutcome.success r.1 step2.1 r.2, reg5)

/-- Provider calls a voice-chat request can make, in order. -/
inductive ProviderCall where
  | transcribe
  | completion
  | speechSynthesis
deriving Repr, DecidableEq

/-- Outcome of `POST /api/voice-chat`. -/
inductive VoiceOutcome where
  | success (transcription response_text audio_data_uri session_id : String)
  | httpError (code : Nat)
deriving Repr, DecidableEq

/-- Lower-cased string (`str.lower()` on the filename). -/
def lowerStr (s : String) : String := String.mk (s.data.map Char.toLower)

/-- Suffix test on character lists. -/
def listEndsWith (l suf : List Char) : Bool :=
  decide (suf = l.drop (l.length - suf.length))

/-- `filename.lower().endswith(('.wav', '.mp3', '.webm', '.m4a', '.ogg'))`. -/
def hasAllowedAudioExt (filename : String) : Bool :=
  [".wav", ".mp3", ".webm", ".m4a", ".ogg"].any
    (fun ext => listEndsWith (lowerStr filename).data ext.data)

/-- The `voice_chat` route handler (`app/routes/voice.py`), with the list of
provider calls it performs.  Control flow of the source: size check (413),
extension check (400), transcription, session resolution, user-message
append, completion, assistant-message append, then
`tts_service.generate_speech(response["content"], use_cache=False,
persist=False)`.  `generate_speech` has no `persist` parameter, so that call
raises `TypeError` before entering the function (no speech-synthesis
provider call is made); the handler's blanket `except` turns it into a 500.
A raised provider error likewise surfaces as a 500. -/
def voice_chat (st : Settings) (reg : Registry)
    (transcriber : List Nat → String → Except Unit String)
    (completer : List Message → Except Unit (String × Nat))
    (audio_bytes : List Nat) (filename : String)
    (session_id : Option String) (fresh_id sysPrompt : String) (now : Nat) :
    (VoiceOutcome × Registry) × List ProviderCall :=
  if audio_bytes.length > st.max_audio_file_size_bytes then
    ((VoiceOutcome.httpError 413, reg), [])
  else if ! hasAllowedAudioExt filename then
    ((VoiceOutcome.httpError 400, reg), [])
  else
    match transcriber audio_bytes filename with
    | Except.error _ => ((VoiceOutcome.httpError 500, reg), [ProviderCall.transcribe])
    | Except.ok transcription =>
      let step1 : String × Registry :=
        match session_id with
        | none => (fresh_id, create_session reg fresh_id sysPrompt now)
        | some sid => (sid, reg)
      let step2 : String × Registry :=
        match get_messages st step1.2 step1.1 now with
        | (some _, r) => (step1.1, r)
        | (none, r) => (fresh_id, create_session r fresh_id sysPrompt now)
      let reg3 := (add_message st step2.2 step2.1 "user" transcription now).2
      match get_messages st reg3 step2.1 now with
      | (none, reg4) =>
        ((VoiceOutcome.httpError 500, reg4), [ProviderCall.transcribe])
      | (some msgs, reg4) =>
        match completer msgs with
        | Except.error _ =>
          ((VoiceOutcome.httpError 500, reg4),
           [ProviderCall.transcribe, ProviderCall.completion])
        | Except.ok r =>
          let reg5 := (add_message st reg4 step2.1 "assistant" r.1 now).2
          ((VoiceOutcome.httpError 500, reg5),
           [ProviderCall.transcribe, ProviderCall.completion])

/-- Field names of `VoiceChatResponse` (`app/models/schemas.py`); extra
keyword arguments passed at construction are ignored by the model. -/
def voiceChatResponseFields : List String :=
  ["transcription", "response", "audio_url", "session_id", "timestamp"]

/-! ## Map lemmas -/

lemma assocGet_set_self {α : Type} (m : List (String × α)) (k : String) (v : α) :
    assocGet (assocSet m k v) k = some v := by
  induction m with
  | nil => simp [assocSet, assocGet]
  | cons p rest ih =>
    obtain ⟨k', w⟩ := p
    by_cases h : k' = k <;> simp [assocSet, assocGet, h, ih]

lemma assocGet_set_ne {α : Type} (m : List (String × α)) (k k' : String) (v : α)
    (h : k' ≠ k) : assocGet (assocSet m k v) k' = assocGet m k' := by
  induction m with
  | nil =>
    simp only [assocSet, assocGet]
    rw [if_neg (Ne.symm h)]
  | cons p rest ih =>
    obtain ⟨k0, w⟩ := p
    by_cases h0 : k0 = k
    · subst h0
      simp only [assocSet, if_pos rfl, assocGet]
      rw [if_neg (Ne.symm h), if_neg (Ne.symm h)]
    · simp only [assocSet, if_neg h0, assocGet]
      by_cases h1 : k0 = k' <;> simp [h1, ih]

lemma assocSet_assocSet {α : Type} (m : List (String × α)) (k : String) (v w : α) :
    assocSet (assocSet m k v) k w = assocSet m k w := by
  induction m with
  | nil => simp [assocSet]
  | cons p rest ih =>
    obtain ⟨k0, u⟩ := p
    by_cases h0 : k0 = k <;> simp [assocSet, h0, ih]

lemma assocGet_erase_self {α : Type} (m : List (String × α)) (k : String) :
    assocGet (assocErase m k) k = none := by
  induction m with
  | nil => simp [assocErase, assocGet]
  | cons p rest ih =>
    obtain ⟨k0, u⟩ := p
    by_cases h0 : k0 = k <;> simp [assocErase, h0, assocGet, ih]

lemma assocGet_erase_ne {α : Type} (m : List (String × α)) (k k' : String)
    (h : k' ≠ k) : assocGet (assocErase m k) k' = assocGet m k' := by
  induction m with
  | nil => simp [assocErase, assocGet]
  | cons p rest ih =>
    obtain ⟨k0, u⟩ := p
    by_cases h0 : k0 = k
    · subst h0
      simp [assocErase, assocGet, Ne.symm h, ih]
    · simp only [assocErase, if_neg h0, assocGet]
      by_cases h1 : k0 = k' <;> simp [h1, ih]

lemma mem_assocErase {α : Type} (m : List (String × α)) (k : String)
    (x : String × α) (h : x ∈ assocErase m k) : x ∈ m := by
  induction m with
  | nil => simp [assocErase] at h
  | cons p rest ih =>
    obtain ⟨k0, u⟩ := p
    by_cases h0 : k0 = k
    · rw [assocErase, if_pos h0] at h
      exact List.mem_cons_of_mem _ (ih h)
    · rw [assocErase, if_neg h0] at h
      rcases List.mem_cons.mp h with h1 | h1
      · exact h1 ▸ List.mem_cons_self _ _
      · exact List.mem_cons_of_mem _ (ih h1)

lemma assocGet_mem {α : Type} (m : List (String × α)) (k : String) (v : α)
    (h : assocGet m k = some v) : (k, v) ∈ m := by
  induction m with
  | nil => simp [assocGet] at h
  | cons p rest ih =>
    obtain ⟨k0, u⟩ := p
    by_cases h0 : k0 = k
    · subst h0
      simp [assocGet] at h
      simp [h]
    · simp [assocGet, h0] at h
      exact List.mem_cons_of_mem _ (ih h)

lemma mem_assocSet {α : Type} (m : List (String × α)) (k : String) (v : α)
    (x : String × α) (h : x ∈ assocSet m k v) : x = (k, v) ∨ x ∈ m := by
  induction m with
  | nil => simpa [assocSet] using h
  | cons p rest ih =>
    obtain ⟨k0, u⟩ := p
    by_cases h0 : k0 = k
    · subst h0
      simp [assocSet] at h
      rcases h with h | h
      · exact Or.inl (by simp [h])
      · exact Or.inr (List.mem_cons_of_mem _ h)
    · simp [assocSet, h0] at h
      rcases h with h | h
      · exact Or.inr (by simp [h])
      · rcases ih h with h1 | h1
        · exact Or.inl h1
        · exact Or.inr (List.mem_cons_of_mem _ h1)

lemma mem_of_mem_filter_pairs {α : Type} (m : List (String × α))
    (p : String × α → Bool) (x : String × α) (h : x ∈ m.filter p) : x ∈ m :=
  List.mem_of_mem_filter h

/-! ## Conversation-manager lemmas -/

/-- Trimming a nonempty message list keeps its head. -/
lemma trim_cons (st : Settings) (m0 : Message) (rest : List Message) :
    ∃ rest2, _trim_conversation_history st (m0 :: rest) = m0 :: rest2 := by
  unfold _trim_conversation_history
  split
  · exact ⟨pyLastSlice st.max_conversation_length (m0 :: rest), rfl⟩
  · exact ⟨rest, rfl⟩

/-- A session touched at `now` is not expired at `now`. -/
lemma not_expired_of_touched (st : Settings) (s : SessionData) (now : Nat)
    (h : s.last_activity = now) : _is_session_expired st s now = false := by
  simp [_is_session_expired, h]

/-- `get_session` on a present, unexpired session returns it with no
registry change. -/
lemma get_session_live (st : Settings) (reg : Registry) (sid : String)
    (now : Nat) (s : SessionData) (hs : assocGet reg sid = some s)
    (hlive : _is_session_expired st s now = false) :
    get_session st reg sid now = (some s, reg) := by
  unfold get_session
  rw [hs]
  simp [hlive]

/-- Full effect of an interference-free `add_message` on a live session:
returns success and stores the appended, metadata-updated, trimmed session. -/
lemma add_message_live (st : Settings) (reg : Registry) (sid role content : String)
    (now : Nat) (s : SessionData) (hs : assocGet reg sid = some s)
    (hlive : _is_session_expired st s now = false) :
    add_message st reg sid role content now =
      (true, assocSet reg sid
        { messages :=
            _trim_conversation_history st
              (s.messages ++ [{ role := role, content := content }])
          created_at := s.created_at
          last_activity := now
          message_count := s.message_count + 1 }) := by
  simp only [add_message, get_session_live st reg sid now s hs hlive]
  simp only [add_message_phase2, hs]
  simp only [_trim_session, assocGet_set_self, assocSet_assocSet]

/-! ## Claim C4 (audio cache, no-cache mode) -/

/-- C4: refuted on the code — `generate_speech` has no `persist` parameter
(the only ephemeral caller passes one and crashes), and even with
`use_cache = false` it unconditionally saves the synthesized audio, so a
subsequent `get_audio` under `key(text, voice)` returns the artifact rather
than absent.  Evaluated here at text `"hi"`, default voice `"alloy"`. -/
theorem generate_speech_no_cache_still_persists :
    get_audio
        (generate_speech defaultSettings (fun _ _ => [1, 2, 3]) [] "hi" none false).2
        (_generate_audio_id "hi" "alloy") = some [1, 2, 3]
    ∧ (generate_speech defaultSettings (fun _ _ => [1, 2, 3]) [] "hi" none false).1.1
        = "46983537ff71c04f672d4c2b96310249" := by
  constructor <;> decide

/-! ## Claim C6 (expiry-aware get evicts, idempotently) -/

/-- C6: `get_session` on a present but expired session evicts it and reports
absent, and every later `get_session` with the same id on the resulting
registry also reports absent without further change. -/
theorem get_session_expired_evicts_idempotent (st : Settings) (reg : Registry)
    (sid : String) (now : Nat) (s : SessionData)
    (hs : assocGet reg sid = some s)
    (hexp : _is_session_expired st s now = true) :
    get_session st reg sid now = (none, assocErase reg sid)
    ∧ ∀ now2, get_session st (assocErase reg sid) sid now2
        = (none, assocErase reg sid) := by
  constructor
  · unfold get_session
    rw [hs]
    simp [hexp]
  · intro now2
    unfold get_session
    rw [assocGet_erase_self]

/-- C6 witness: a session last active at 0 with the default 3600-second
timeout, read at 99999. -/
theorem get_session_expired_evicts_idempotent_witness :
    get_session defaultSettings [("sid", ⟨[⟨"system", "p"⟩], 0, 0, 0⟩)] "sid" 99999
      = (none, [])
    ∧ ∀ now2, get_session defaultSettings ([] : Registry) "sid" now2 = (none, []) := by
  have h := get_session_expired_evicts_idempotent defaultSettings
    [("sid", ⟨[⟨"system", "p"⟩], 0, 0, 0⟩)] "sid" 99999
    ⟨[⟨"system", "p"⟩], 0, 0, 0⟩ (by decide) (by decide)
  simpa using h

/-! ## Claim C5 (append on absent/expired id) -/

/-- C5 counterexample: appending to an expired session returns failure but
does not leave the registry unchanged — the expiry-aware lookup inside
`add_message` evicts the expired entry as a side effect. -/
theorem add_message_expired_mutates_registry :
    add_message defaultSettings [("sid", ⟨[⟨"system", "p"⟩], 0, 0, 0⟩)] "sid" "user" "hi" 99999
      = (false, [])
    ∧ ([] : Registry) ≠ [("sid", ⟨[⟨"system", "p"⟩], 0, 0, 0⟩)] := by
  constructor <;> decide

/-- C5 amended: `add_message` on an id whose expiry-aware lookup reports
absent returns failure, appends nothing, resurrects nothing (the id is
unbound afterwards), and changes no other entry; the only possible change
is the eviction of that id's expired entry performed by the lookup itself. -/
theorem add_message_dead_session_no_append (st : Settings) (reg : Registry)
    (sid role content : String) (now : Nat)
    (h : (get_session st reg sid now).1 = none) :
    add_message st reg sid role content now = (false, (get_session st reg sid now).2)
    ∧ assocGet (get_session st reg sid now).2 sid = none
    ∧ ∀ k, k ≠ sid → assocGet (get_session st reg sid now).2 k = assocGet reg k := by
  cases hlook : assocGet reg sid with
  | none =>
    have hg : get_session st reg sid now = (none, reg) := by
      unfold get_session
      rw [hlook]
    rw [hg]
    refine ⟨?_, hlook, fun k _ => rfl⟩
    unfold add_message
    rw [hg]
  | some s =>
    have hexp : _is_session_expired st s now = true := by
      cases hb : _is_session_expired st s now with
      | false =>
        rw [get_session_live st reg sid now s hlook hb] at h
        simp at h
      | true => rfl
    have hg : get_session st reg sid now = (none, assocErase reg sid) := by
      unfold get_session
      rw [hlook]
      simp [hexp]
    rw [hg]
    refine ⟨?_, assocGet_erase_self reg sid, fun k hk => assocGet_erase_ne reg sid k hk⟩
    unfold add_message
    rw [hg]

/-- C5 witness: instantiates the amended statement on an absent id. -/
theorem add_message_dead_session_no_append_witness :
    add_message defaultSettings [] "ghost" "user" "hi" 7 = (false, [])
    ∧ assocGet ([] : Registry) "ghost" = none := by
  have h := add_message_dead_session_no_append defaultSettings [] "ghost" "user" "hi" 7
    (by decide)
  exact ⟨h.1, h.2.1⟩

/-! ## Claim C7 (cache key depends on exactly text and voice) -/

/-- C7: the audio identifier returned by `generate_speech` is
`_generate_audio_id text voice` — a pure function of the text and the
resolved voice alone.  In particular two synthesis pipelines differing only
in the speed handed to `text_to_speech` (or in cache state or cache flag)
produce the identical cache key. -/
theorem audio_cache_key_ignores_speed (st : Settings)
    (speechAPI : String → String → ℚ → List Nat) (speed1 speed2 : ℚ)
    (store1 store2 : AudioStore) (uc1 uc2 : Bool)
    (text : String) (voice : Option String) :
    (generate_speech st (fun t v => text_to_speech st speechAPI t (some v) speed1)
        store1 text voice uc1).1.1
      = (generate_speech st (fun t v => text_to_speech st speechAPI t (some v) speed2)
        store2 text voice uc2).1.1
    ∧ (generate_speech st (fun t v => text_to_speech st speechAPI t (some v) speed1)
        store1 text voice uc1).1.1
      = _generate_audio_id text (voice.getD st.openai_tts_voice) := by
  have key : ∀ (synth : String → String → List Nat) (store : AudioStore) (uc : Bool),
      (generate_speech st synth store text voice uc).1.1
        = _generate_audio_id text (voice.getD st.openai_tts_voice) := by
    intro synth store uc
    simp only [generate_speech]
    split <;> rfl
  exact ⟨(key _ store1 uc1).trans (key _ store2 uc2).symm, key _ store1 uc1⟩

/-! ## Claim C8 (oversize audio rejected before any provider call) -/

/-- C8: a voice-chat request whose file exceeds the configured byte ceiling
is rejected with 413, the registry untouched and the provider-call log
empty — no transcription, completion or synthesis happens. -/
theorem voice_chat_oversize_rejected_before_providers (st : Settings)
    (reg : Registry) (transcriber : List Nat → String → Except Unit String)
    (completer : List Message → Except Unit (String × Nat))
    (audio_bytes : List Nat) (filename : String) (session_id : Option String)
    (fresh_id sysPrompt : String) (now : Nat)
    (h : audio_bytes.length > st.max_audio_file_size_bytes) :
    voice_chat st reg transcriber completer audio_bytes filename session_id
        fresh_id sysPrompt now
      = ((VoiceOutcome.httpError 413, reg), []) := by
  unfold voice_chat
  rw [if_pos h]

/-- C8 witness: ceiling configured at 0 MB, a 1-byte file (one byte over). -/
theorem voice_chat_oversize_rejected_witness :
    ([0] : List Nat).length
        > Settings.max_audio_file_size_bytes { max_audio_file_size_mb := 0 }
    ∧ voice_chat { max_audio_file_size_mb := 0 } []
        (fun _ _ => Except.ok "t") (fun _ => Except.ok ("r", 1))
        [0] "a.wav" none "fresh" "p" 0
      = ((VoiceOutcome.httpError 413, []), []) := by
  refine ⟨by decide, ?_⟩
  exact voice_chat_oversize_rejected_before_providers { max_audio_file_size_mb := 0 } []
    (fun _ _ => Except.ok "t") (fun _ => Except.ok ("r", 1)) [0] "a.wav" none
    "fresh" "p" 0 (by decide)

/-! ## Claim C2 (system message pinned, registry-wide invariant) -/

/-- Well-formedness of a stored session: nonempty messages whose first
element has role `"system"`. -/
def sessionWF (s : SessionData) : Prop :=
  ∃ m rest, s.messages = m :: rest ∧ m.role = "system"

lemma sessionWF_create (sysPrompt : String) (now : Nat) :
    sessionWF (_create_session_data sysPrompt now) :=
  ⟨{ role := "system", content := sysPrompt }, [], rfl, rfl⟩

/-- Appending a message and trimming preserves well-formedness. -/
lemma sessionWF_append_trim (st : Settings) (s : SessionData) (hWF : sessionWF s)
    (m : Message) (now : Nat) :
    sessionWF
      { messages := _trim_conversation_history st (s.messages ++ [m])
        created_at := s.created_at
        last_activity := now
        message_count := s.message_count + 1 } := by
  obtain ⟨m0, rest, hm, hr⟩ := hWF
  obtain ⟨rest2, htrim⟩ := trim_cons st m0 (rest ++ [m])
  refine ⟨m0, rest2, ?_, hr⟩
  show _trim_conversation_history st (s.messages ++ [m]) = m0 :: rest2
  rw [hm, List.cons_append, htrim]

lemma get_session_snd_cases (st : Settings) (reg : Registry) (sid : String)
    (now : Nat) :
    (get_session st reg sid now).2 = reg
    ∨ (get_session st reg sid now).2 = assocErase reg sid := by
  unfold get_session
  cases assocGet reg sid with
  | none => exact Or.inl rfl
  | some s =>
    by_cases h : _is_session_expired st s now = true
    · simp [h]
    · simp [h]

lemma delete_session_snd_cases (reg : Registry) (sid : String) :
    (delete_session reg sid).2 = reg
    ∨ (delete_session reg sid).2 = assocErase reg sid := by
  unfold delete_session
  cases assocGet reg sid with
  | none => exact Or.inl rfl
  | some s => exact Or.inr rfl

/-- The three possible registry outcomes of `add_message`. -/
lemma add_message_snd_cases (st : Settings) (reg : Registry)
    (sid role content : String) (now : Nat) :
    (add_message st reg sid role content now).2 = reg
    ∨ (add_message st reg sid role content now).2 = assocErase reg sid
    ∨ ∃ s, assocGet reg sid = some s ∧
        (add_message st reg sid role content now).2
          = assocSet reg sid
            { messages := _trim_conversation_history st
                (s.messages ++ [{ role := role, content := content }])
              created_at := s.created_at
              last_activity := now
              message_count := s.message_count + 1 } := by
  cases hlook : assocGet reg sid with
  | none =>
    left
    simp [add_message, get_session, hlook]
  | some s =>
    cases hexp : _is_session_expired st s now with
    | true =>
      right; left
      simp [add_message, get_session, hlook, hexp]
    | false =>
      right; right
      exact ⟨s, rfl, by rw [add_message_live st reg sid role content now s hlook hexp]⟩

/-- Every manager operation preserves registry-wide well-formedness. -/
lemma applyOp_preserves_wf (st : Settings) (reg : Registry)
    (hreg : ∀ x ∈ reg, sessionWF x.2) (op : ManagerOp) :
    ∀ x ∈ applyOp st reg op, sessionWF x.2 := by
  cases op with
  | create id sp now =>
    intro x hx
    rcases mem_assocSet _ _ _ _ hx with h | h
    · rw [h]
      exact sessionWF_create sp now
    · exact hreg x h
  | get id now =>
    intro x hx
    simp only [applyOp] at hx
    rcases get_session_snd_cases st reg id now with h | h <;> rw [h] at hx
    · exact hreg x hx
    · exact hreg x (mem_assocErase _ _ _ hx)
  | add id role content now =>
    intro x hx
    simp only [applyOp] at hx
    rcases add_message_snd_cases st reg id role content now with h | h | ⟨s, hlook, h⟩ <;>
      rw [h] at hx
    · exact hreg x hx
    · exact hreg x (mem_assocErase _ _ _ hx)
    · rcases mem_assocSet _ _ _ _ hx with h1 | h1
      · rw [h1]
        exact sessionWF_append_trim st s (hreg _ (assocGet_mem _ _ _ hlook)) _ now
      · exact hreg x h1
  | delete id =>
    intro x hx
    simp only [applyOp] at hx
    rcases delete_session_snd_cases reg id with h | h <;> rw [h] at hx
    · exact hreg x hx
    · exact hreg x (mem_assocErase _ _ _ hx)
  | cleanup now =>
    intro x hx
    exact hreg x (List.mem_of_mem_filter hx)

lemma foldl_ops_wf (st : Settings) (ops : List ManagerOp) :
    ∀ (reg : Registry), (∀ x ∈ reg, sessionWF x.2) →
      ∀ x ∈ ops.foldl (applyOp st) reg, sessionWF x.2 := by
  induction ops with
  | nil => intro reg hreg x hx; exact hreg x hx
  | cons op rest ih =>
    intro reg hreg x hx
    rw [List.foldl_cons] at hx
    exact ih (applyOp st reg op) (applyOp_preserves_wf st reg hreg op) x hx

/-- C2: after any sequence of manager operations from the empty store, every
session present in the registry has a nonempty message list whose first
element has role `"system"`. -/
theorem registry_sessions_system_first (st : Settings) (ops : List ManagerOp)
    (sid : String) (s : SessionData)
    (h : assocGet (runOps st ops) sid = some s) :
    s.messages ≠ [] ∧ ∃ m rest, s.messages = m :: rest ∧ m.role = "system" := by
  have hwf : sessionWF s := by
    have hmem := assocGet_mem _ _ _ h
    exact foldl_ops_wf st ops [] (by intro x hx; simp at hx) (sid, s) hmem
  obtain ⟨m, rest, hm, hr⟩ := hwf
  exact ⟨by rw [hm]; simp, m, rest, hm, hr⟩

/-- C2 witness: a create / append / lazy-get / sweep trace. -/
theorem registry_sessions_system_first_witness :
    assocGet
        (runOps defaultSettings
          [ManagerOp.create "a" "p" 0, ManagerOp.add "a" "user" "hi" 1,
           ManagerOp.get "a" 2, ManagerOp.cleanup 3]) "a"
      = some ⟨[⟨"system", "p"⟩, ⟨"user", "hi"⟩], 0, 1, 1⟩
    ∧ (([⟨"system", "p"⟩, ⟨"user", "hi"⟩] : List Message) ≠ []
       ∧ ∃ m rest, ([⟨"system", "p"⟩, ⟨"user", "hi"⟩] : List Message) = m :: rest
           ∧ m.role = "system") := by
  refine ⟨by decide, ?_⟩
  have h := registry_sessions_system_first defaultSettings
    [ManagerOp.create "a" "p" 0, ManagerOp.add "a" "user" "hi" 1,
     ManagerOp.get "a" 2, ManagerOp.cleanup 3] "a"
    ⟨[⟨"system", "p"⟩, ⟨"user", "hi"⟩], 0, 1, 1⟩ (by decide)
  exact h

/-! ## Claim C1 (trim policy is a sliding window) -/

lemma trim_cons_small (st : Settings) (sysM : Message) (l : List Message)
    (h : l.length ≤ st.max_conversation_length) :
    _trim_conversation_history st (sysM :: l) = sysM :: l := by
  unfold _trim_conversation_history
  rw [if_neg]
  simp only [List.length_cons]
  omega

lemma trim_cons_full (st : Settings) (hL : 1 ≤ st.max_conversation_length)
    (sysM : Message) (l : List Message)
    (h : l.length = st.max_conversation_length + 1) :
    _trim_conversation_history st (sysM :: l) = sysM :: l.drop 1 := by
  unfold _trim_conversation_history
  rw [if_pos (by simp only [List.length_cons]; omega)]
  show sysM :: pyLastSlice st.max_conversation_length (sysM :: l) = sysM :: l.drop 1
  congr 1
  unfold pyLastSlice
  rw [if_neg (by omega)]
  have h2 : (sysM :: l).length - st.max_conversation_length = 2 := by
    simp only [List.length_cons]
    omega
  rw [h2]
  exact List.drop_succ_cons

/-- The trim-after-each-append fold keeps the pinned head plus the last
`max_conversation_length` appended messages. -/
lemma trim_fold_char (st : Settings) (hL : 1 ≤ st.max_conversation_length) :
    ∀ (appends t : List Message) (sysM : Message),
      t.length ≤ st.max_conversation_length →
      List.foldl (fun msgs m => _trim_conversation_history st (msgs ++ [m]))
          (sysM :: t) appends
        = sysM :: (t ++ appends).drop
            ((t ++ appends).length - st.max_conversation_length) := by
  intro appends
  induction appends with
  | nil =>
    intro t sysM ht
    simp only [List.foldl_nil, List.append_nil]
    rw [Nat.sub_eq_zero_of_le ht, List.drop_zero]
  | cons m rest ih =>
    intro t sysM ht
    rw [List.foldl_cons]
    rcases Nat.lt_or_ge t.length st.max_conversation_length with hlt | hge
    · rw [List.cons_append,
        trim_cons_small st sysM (t ++ [m])
          (by simp only [List.length_append, List.length_cons, List.length_nil]; omega)]
      rw [ih (t ++ [m]) sysM
          (by simp only [List.length_append, List.length_cons, List.length_nil]; omega)]
      rw [List.append_assoc]
      rfl
    · have htL : t.length = st.max_conversation_length := le_antisymm ht hge
      obtain ⟨t0, ttail, rfl⟩ : ∃ t0 ttail, t = t0 :: ttail := by
        cases t with
        | nil => simp at htL; omega
        | cons a b => exact ⟨a, b, rfl⟩
      rw [List.cons_append,
        trim_cons_full st hL sysM ((t0 :: ttail) ++ [m])
          (by simp only [List.length_append, List.length_cons, List.length_nil]
              simp only [List.length_cons] at htL
              omega)]
      have hdrop : ((t0 :: ttail) ++ [m]).drop 1 = ttail ++ [m] := by
        simp
      rw [hdrop]
      rw [ih (ttail ++ [m]) sysM
          (by simp only [List.length_append, List.length_cons, List.length_nil]
              simp only [List.length_cons] at htL
              omega)]
      congr 1
      rw [List.append_assoc, List.singleton_append, List.cons_append]
      have h1 : (ttail ++ m :: rest).length - st.max_conversation_length
          = rest.length := by
        simp only [List.length_append, List.length_cons]
        simp only [List.length_cons] at htL
        omega
      have h2 : (t0 :: (ttail ++ m :: rest)).length - st.max_conversation_length
          = rest.length + 1 := by
        simp only [List.length_cons, List.length_append]
        simp only [List.length_cons] at htL
        omega
      rw [h1, h2, List.drop_succ_cons]

/-- Messages stored after a run of `add_message` calls on a live session are
the trim-after-append fold of the starting messages. -/
lemma runAppends_messages (st : Settings) (sid : String) (now : Nat) :
    ∀ (turns : List (String × String)) (reg : Registry) (s : SessionData),
      assocGet reg sid = some s → _is_session_expired st s now = false →
      ∃ s2, assocGet (runAppends st reg sid turns now) sid = some s2 ∧
        s2.messages = List.foldl
          (fun msgs t => _trim_conversation_history st
            (msgs ++ [{ role := t.1, content := t.2 }])) s.messages turns := by
  intro turns
  induction turns with
  | nil =>
    intro reg s hs _
    exact ⟨s, by simpa [runAppends] using hs, by simp⟩
  | cons t rest ih =>
    intro reg s hs hlive
    have hstep := add_message_live st reg sid t.1 t.2 now s hs hlive
    have hrun : runAppends st reg sid (t :: rest) now
        = runAppends st
            (assocSet reg sid
              { messages := _trim_conversation_history st
                  (s.messages ++ [{ role := t.1, content := t.2 }])
                created_at := s.created_at
                last_activity := now
                message_count := s.message_count + 1 }) sid rest now := by
      unfold runAppends
      rw [List.foldl_cons, hstep]
    obtain ⟨s2, hget, hmsg⟩ := ih
      (assocSet reg sid
        { messages := _trim_conversation_history st
            (s.messages ++ [{ role := t.1, content := t.2 }])
          created_at := s.created_at
          last_activity := now
          message_count := s.message_count + 1 })
      { messages := _trim_conversation_history st
          (s.messages ++ [{ role := t.1, content := t.2 }])
        created_at := s.created_at
        last_activity := now
        message_count := s.message_count + 1 }
      (assocGet_set_self _ _ _) (not_expired_of_touched st _ now rfl)
    refine ⟨s2, ?_, ?_⟩
    · rw [hrun]
      exact hget
    · rw [hmsg, List.foldl_cons]

/-- C1: for any configured `max_conversation_length = L ≥ 1`, any live
session holding just the system message, and any sequence of appended
turns, the stored history after running `add_message` for each turn is
exactly the system message followed by the last `L` appended messages in
order — the system message is never discarded. -/
theorem conversation_trim_sliding_window (st : Settings) (reg : Registry)
    (sid : String) (now : Nat) (s : SessionData) (sysM : Message)
    (turns : List (String × String))
    (hL : 1 ≤ st.max_conversation_length)
    (hs : assocGet reg sid = some s)
    (hsys : s.messages = [sysM])
    (hlive : _is_session_expired st s now = false) :
    ∃ s2, assocGet (runAppends st reg sid turns now) sid = some s2 ∧
      s2.messages = sysM ::
        (turns.map (fun t => ({ role := t.1, content := t.2 } : Message))).drop
          (turns.length - st.max_conversation_length) := by
  obtain ⟨s2, hget, hmsg⟩ := runAppends_messages st sid now turns reg s hs hlive
  refine ⟨s2, hget, ?_⟩
  rw [hmsg, hsys]
  rw [show (List.foldl
      (fun msgs t => _trim_conversation_history st
        (msgs ++ [{ role := t.1, content := t.2 }])) [sysM] turns)
    = List.foldl (fun msgs m => _trim_conversation_history st (msgs ++ [m]))
        (sysM :: ([] : List Message))
        (turns.map fun t => ({ role := t.1, content := t.2 } : Message))
    from (List.foldl_map (fun t => ({ role := t.1, content := t.2 } : Message))
      (fun msgs m => _trim_conversation_history st (msgs ++ [m])) turns
      (sysM :: ([] : List Message))).symm]
  rw [trim_fold_char st hL
      (turns.map fun t => ({ role := t.1, content := t.2 } : Message)) [] sysM
      (by simp)]
  simp

/-- C1 witness: `max_conversation_length = 2`, four appended turns leave
`[system, turn3, turn4]`. -/
theorem conversation_trim_sliding_window_witness :
    ∃ s2, assocGet
        (runAppends { max_conversation_length := 2 }
          [("sid", ⟨[⟨"system", "p"⟩], 0, 0, 0⟩)] "sid"
          [("user", "t1"), ("assistant", "t2"), ("user", "t3"), ("assistant", "t4")] 0)
        "sid" = some s2
      ∧ s2.messages = [⟨"system", "p"⟩, ⟨"user", "t3"⟩, ⟨"assistant", "t4"⟩] := by
  obtain ⟨s2, h1, h2⟩ := conversation_trim_sliding_window
    { max_conversation_length := 2 } [("sid", ⟨[⟨"system", "p"⟩], 0, 0, 0⟩)]
    "sid" 0 ⟨[⟨"system", "p"⟩], 0, 0, 0⟩ ⟨"system", "p"⟩
    [("user", "t1"), ("assistant", "t2"), ("user", "t3"), ("assistant", "t4")]
    (by decide) (by decide) (by decide) (by decide)
  exact ⟨s2, h1, by rw [h2]; rfl⟩

/-! ## Claim C3 (failed completion and session state) -/

/-- C3 counterexample: with a live session and a completion call that always
fails, the chat handler does not leave the session state unchanged — the
registry after the failed turn differs from the registry before it. -/
theorem chat_failed_completion_mutates_state :
    (chat defaultSettings [("sid", ⟨[⟨"system", "p"⟩], 0, 0, 0⟩)]
        (fun _ => Except.error ()) "hi" (some "sid") "fresh" "p" 0).2
      ≠ [("sid", ⟨[⟨"system", "p"⟩], 0, 0, 0⟩)] := by
  decide

/-- C3 amended: when the completion call of a chat turn fails, no assistant
message is committed and the handler returns 500, but the user message of
that turn has already been appended (with trim and metadata update) before
the provider call — the turn is partially committed. -/
theorem chat_failed_completion_commits_user_only (st : Settings)
    (reg : Registry) (completer : List Message → Except Unit (String × Nat))
    (message sid fresh_id sysPrompt : String) (now : Nat) (s : SessionData)
    (hs : assocGet reg sid = some s)
    (hlive : _is_session_expired st s now = false)
    (hfail : ∀ msgs, completer msgs = Except.error ()) :
    chat st reg completer message (some sid) fresh_id sysPrompt now
      = (ChatOutcome.httpError 500,
         assocSet reg sid
           { messages := _trim_conversation_history st
               (s.messages ++ [{ role := "user", content := message }])
             created_at := s.created_at
             last_activity := now
             message_count := s.message_count + 1 }) := by
  have hget1 : get_messages st reg sid now = (some s.messages, reg) := by
    unfold get_messages
    rw [get_session_live st reg sid now s hs hlive]
  have hstep := add_message_live st reg sid "user" message now s hs hlive
  have hget2 : get_messages st
      (assocSet reg sid
        { messages := _trim_conversation_history st
            (s.messages ++ [{ role := "user", content := message }])
          created_at := s.created_at
          last_activity := now
          message_count := s.message_count + 1 }) sid now
      = (some (_trim_conversation_history st
            (s.messages ++ [{ role := "user", content := message }])),
         assocSet reg sid
           { messages := _trim_conversation_history st
               (s.messages ++ [{ role := "user", content := message }])
             created_at := s.created_at
             last_activity := now
             message_count := s.message_count + 1 }) := by
    unfold get_messages
    rw [get_session_live st _ sid now _ (assocGet_set_self _ _ _)
      (not_expired_of_touched st _ now rfl)]
  simp only [chat, hget1, hstep, hget2, hfail]

/-- C3 witness for the amended statement (concrete live session, failing
completer). -/
theorem chat_failed_completion_commits_user_only_witness :
    chat defaultSettings [("sid", ⟨[⟨"system", "p"⟩], 0, 0, 0⟩)]
        (fun _ => Except.error ()) "hi" (some "sid") "fresh" "p" 0
      = (ChatOutcome.httpError 500,
         [("sid", ⟨[⟨"system", "p"⟩, ⟨"user", "hi"⟩], 0, 0, 1⟩)]) := by
  have h := chat_failed_completion_commits_user_only defaultSettings
    [("sid", ⟨[⟨"system", "p"⟩], 0, 0, 0⟩)] (fun _ => Except.error ()) "hi" "sid"
    "fresh" "p" 0 ⟨[⟨"system", "p"⟩], 0, 0, 0⟩ (by decide) (by decide)
    (fun _ => rfl)
  exact h

/-! ## Claim C9 (append racing expiry/delete) -/

/-- C9 counterexample: the expiry-aware check and the guarded mutation of
`add_message` sit in two distinct lock-protected sections.  Interleaving a
delete at the suspension point makes the append report success while the
registry ends empty, whereas the interference-free run stores the message —
so check and mutation are not evaluated in one exclusive section. -/
theorem append_delete_interleaved_counterexample :
    add_message_delete_interleaved defaultSettings
        [("sid", ⟨[⟨"system", "p"⟩], 0, 0, 0⟩)] "sid" "user" "hi" 5
      = (true, [])
    ∧ (add_message defaultSettings [("sid", ⟨[⟨"system", "p"⟩], 0, 0, 0⟩)]
        "sid" "user" "hi" 5).2
      = [("sid", ⟨[⟨"system", "p"⟩, ⟨"user", "hi"⟩], 0, 5, 1⟩)] := by
  constructor <;> decide

/-- C9 amended: whenever the first section of `add_message` sees a live
session, a delete (or sweep eviction) interleaved before its second section
leaves the append reporting success while the session — and the message it
was supposed to receive — is gone from the registry: a lost update, though
the registry map itself stays well-formed. -/
theorem append_delete_interleaved_lost_update (st : Settings) (reg : Registry)
    (sid role content : String) (now : Nat) (s : SessionData)
    (h : (get_session st reg sid now).1 = some s) :
    (add_message_delete_interleaved st reg sid role content now).1 = true
    ∧ assocGet (add_message_delete_interleaved st reg sid role content now).2 sid
      = none := by
  have hlook : assocGet reg sid = some s := by
    cases hl : assocGet reg sid with
    | none => simp [get_session, hl] at h
    | some s0 =>
      simp only [get_session, hl] at h
      by_cases he : _is_session_expired st s0 now = true
      · simp [he] at h
      · simp [he] at h
        rw [h]
  have hlive : _is_session_expired st s now = false := by
    cases he : _is_session_expired st s now with
    | false => rfl
    | true => simp [get_session, hlook, he] at h
  have hpair : get_session st reg sid now = (some s, reg) :=
    get_session_live st reg sid now s hlook hlive
  have hdel : delete_session reg sid = (true, assocErase reg sid) := by
    unfold delete_session
    rw [hlook]
  simp only [add_message_delete_interleaved, hpair, hdel, add_message_phase2,
    assocGet_erase_self]
  exact ⟨trivial, trivial⟩

/-- C9 witness for the amended statement. -/
theorem append_delete_interleaved_lost_update_witness :
    (add_message_delete_interleaved defaultSettings
        [("sid", ⟨[⟨"system", "p"⟩], 0, 0, 0⟩)] "sid" "user" "hi" 5).1 = true
    ∧ assocGet (add_message_delete_interleaved defaultSettings
        [("sid", ⟨[⟨"system", "p"⟩], 0, 0, 0⟩)] "sid" "user" "hi" 5).2 "sid"
      = none :=
  append_delete_interleaved_lost_update defaultSettings
    [("sid", ⟨[⟨"system", "p"⟩], 0, 0, 0⟩)] "sid" "user" "hi" 5
    ⟨[⟨"system", "p"⟩], 0, 0, 0⟩ (by decide)

/-! ## Claim C10 (voice-chat success response) -/

/-- C10: refuted on the code.  `VoiceChatResponse` has no `audio_base64`
field (the handler's extra keyword is silently dropped), and no voice-chat
request can succeed at all: the handler calls `generate_speech` with a
`persist` keyword the function does not accept, raising `TypeError`, so
every request that reaches synthesis ends in a 500 after exactly the
transcription and completion provider calls. -/
theorem voice_chat_never_returns_audio_base64 :
    "audio_base64" ∉ voiceChatResponseFields
    ∧ (∀ (st : Settings) (reg : Registry)
        (transcriber : List Nat → String → Except Unit String)
        (completer : List Message → Except Unit (String × Nat))
        (audio_bytes : List Nat) (filename : String)
        (session_id : Option String) (fresh_id sysPrompt : String) (now : Nat)
        (t r a sid2 : String),
        (voice_chat st reg transcriber completer audio_bytes filename
            session_id fresh_id sysPrompt now).1.1
          ≠ VoiceOutcome.success t r a sid2)
    ∧ voice_chat defaultSettings [] (fun _ _ => Except.ok "hello")
        (fun _ => Except.ok ("resp", 5)) [1, 2, 3] "a.wav" none "s1" "p" 0
      = ((VoiceOutcome.httpError 500,
          [("s1", ⟨[⟨"system", "p"⟩, ⟨"user", "hello"⟩, ⟨"assistant", "resp"⟩],
            0, 0, 2⟩)]),
         [ProviderCall.transcribe, ProviderCall.completion]) := by
  refine ⟨by decide, ?_, by decide⟩
  intro st reg transcriber completer audio_bytes filename session_id fresh_id
    sysPrompt now t r a sid2
  unfold voice_chat
  repeat' split
  all_goals try dsimp only
  repeat' split
  all_goals simp
